import Mathlib

/-!
Shallow embedding of the LGTV-Firmware-Downgrade utility
(src/firmware_finder.py, src/usb_prep.py, src/ssh_helper.py),
with theorems settling the specification claims about it.
-/

namespace LGTV

/-! ## Firmware database (src/firmware_finder.py, class FirmwareDatabase)

`ROOTABLE_FIRMWARE` is a dict from webOS generation to a list of version
strings; `PATCHED_FIRMWARE` is a flat list.  `is_rootable` tests literal
membership of the version in some value list of the dict; `is_patched`
tests whether the version starts with a table entry stripped of its
trailing `x` characters (Python `patched.rstrip('x')`). -/

def ROOTABLE_FIRMWARE : List (String × List String) :=
  [("webOS 4.x", ["4.x.x", "03.21.30", "03.20.14", "03.21.40"]),
   ("webOS 5.x", ["05.00.00", "05.10.00", "05.20.00"]),
   ("webOS 6.x", ["06.00.00", "06.10.00"])]

def PATCHED_FIRMWARE : List String :=
  ["03.30.10", "03.30.14", "03.40.xx"]

/-- Python `s.rstrip(c)`: remove all trailing occurrences of `c`. -/
def rstripChar (s : String) (c : Char) : String :=
  ⟨(s.data.reverse.dropWhile (fun d => d = c)).reverse⟩

/-- Python `s.startswith(p)`, on the underlying character lists. -/
def strStartsWith (s p : String) : Bool := p.data.isPrefixOf s.data

/-- Python `s.endswith(p)`, on the underlying character lists. -/
def strEndsWith (s p : String) : Bool := p.data.isSuffixOf s.data

/-- `FirmwareDatabase.is_rootable`: the version occurs literally in some
value list of `ROOTABLE_FIRMWARE`. -/
def is_rootable (version : String) : Bool :=
  ROOTABLE_FIRMWARE.any (fun kv => kv.2.contains version)

/-- `FirmwareDatabase.is_patched`: the version starts with some
`PATCHED_FIRMWARE` entry stripped of trailing `x`. -/
def is_patched (version : String) : Bool :=
  PATCHED_FIRMWARE.any (fun patched => strStartsWith version (rstripChar patched 'x'))

/-- `FirmwareDatabase.recommend_firmware`: the current version if rootable,
otherwise the constant `03.21.30`; the Python return type is `Optional[str]`. -/
def recommend_firmware (current_version : String) : Option String :=
  if is_rootable current_version then some current_version
  else some "03.21.30"

/-- Modelled from the spec's words (for comparison with `is_patched`, which is
translated from the code): membership of a version in the patched table, a
prefix-wildcard entry (one ending in `x`) matching any version beginning with
its stripped prefix, a plain entry matching only itself. -/
def inPatchedTableSpec (version : String) : Bool :=
  PATCHED_FIRMWARE.any (fun patched =>
    if strEndsWith patched "x" then strStartsWith version (rstripChar patched 'x')
    else patched == version)

/-- The flat union of the rootable table's value lists. -/
def rootableVersions : List String :=
  (ROOTABLE_FIRMWARE.map Prod.snd).flatten

lemma mem_rootableVersions_iff (v : String) :
    v ∈ rootableVersions ↔
      (v = "4.x.x" ∨ v = "03.21.30" ∨ v = "03.20.14" ∨ v = "03.21.40" ∨
       v = "05.00.00" ∨ v = "05.10.00" ∨ v = "05.20.00" ∨
       v = "06.00.00" ∨ v = "06.10.00") := by
  simp [rootableVersions, ROOTABLE_FIRMWARE]

lemma is_rootable_cases (v : String) (h : is_rootable v = true) :
    v = "4.x.x" ∨ v = "03.21.30" ∨ v = "03.20.14" ∨ v = "03.21.40" ∨
    v = "05.00.00" ∨ v = "05.10.00" ∨ v = "05.20.00" ∨
    v = "06.00.00" ∨ v = "06.10.00" := by
  simp [is_rootable, ROOTABLE_FIRMWARE, List.contains] at h
  tauto

lemma is_rootable_iff (v : String) :
    is_rootable v = true ↔ v ∈ rootableVersions := by
  constructor
  · intro h
    exact (mem_rootableVersions_iff v).mpr (is_rootable_cases v h)
  · intro h
    rcases (mem_rootableVersions_iff v).mp h with h|h|h|h|h|h|h|h|h <;>
      subst h <;> rfl

/-! ## Firmware cache lookup (src/firmware_finder.py, FirmwareFinder._check_cache)

The Python code compiles the pattern `.*<version-with-dots-escaped>\.epk`
with `re.IGNORECASE` and applies `pattern.match` to the name of each file
produced by `glob("*.epk")` over the cache directory, returning the first
match (as a path inside the cache directory) or `None`.  For a version
string free of regex metacharacters (the version strings of this program
are digits, dots and letters), `pattern.match(name)` holds exactly when
the lowercased name contains the lowercased `version ++ ".epk"` as a
contiguous substring.  The cache directory is modelled as the list of its
file names in glob order; the returned value is the matching file name. -/

/-- `needle` occurs as a contiguous subsequence of `hay`. -/
def containsSeq (needle : List Char) : List Char → Bool
  | [] => needle.isEmpty
  | c :: rest => needle.isPrefixOf (c :: rest) || containsSeq needle rest

/-- Python `s.lower()` (ASCII), on the underlying character list. -/
def strToLower (s : String) : String := ⟨s.data.map Char.toLower⟩

/-- The compiled pattern of `_check_cache` matches the file name:
case-insensitively, the name contains `version ++ ".epk"`. -/
def cacheMatch (target_version name : String) : Bool :=
  containsSeq ((strToLower target_version).data ++ ".epk".data)
    (strToLower name).data

/-- `FirmwareFinder._check_cache`: the first `*.epk` cache file whose name
matches the pattern, or `none`. -/
def check_cache (target_version : String) (cacheFiles : List String) :
    Option String :=
  (cacheFiles.filter (fun n => strEndsWith n ".epk")).find?
    (fun n => cacheMatch target_version n)

lemma isPrefixOf_iff_exists (n h : List Char) :
    n.isPrefixOf h = true ↔ ∃ r, h = n ++ r := by
  induction n generalizing h with
  | nil => simp [List.isPrefixOf]
  | cons a as ih =>
    cases h with
    | nil => simp [List.isPrefixOf]
    | cons b bs =>
      simp only [List.isPrefixOf, Bool.and_eq_true, beq_iff_eq, ih, List.cons_append,
        List.cons.injEq]
      constructor
      · rintro ⟨rfl, r, rfl⟩
        exact ⟨r, rfl, rfl⟩
      · rintro ⟨r, rfl, rfl⟩
        exact ⟨rfl, r, rfl⟩

lemma containsSeq_iff (n h : List Char) :
    containsSeq n h = true ↔ ∃ s t, h = s ++ n ++ t := by
  induction h with
  | nil =>
    simp only [containsSeq, List.isEmpty_iff]
    constructor
    · rintro rfl
      exact ⟨[], [], rfl⟩
    · rintro ⟨s, t, het⟩
      rcases List.append_eq_nil.mp (List.append_eq_nil.mp het.symm).1 with ⟨-, hn⟩
      exact hn
  | cons c rest ih =>
    simp only [containsSeq, Bool.or_eq_true, isPrefixOf_iff_exists, ih]
    constructor
    · rintro (⟨r, hr⟩ | ⟨s, t, hst⟩)
      · exact ⟨[], r, by simpa using hr⟩
      · exact ⟨c :: s, t, by simp [hst]⟩
    · rintro ⟨s, t, hst⟩
      cases s with
      | nil => exact Or.inl ⟨t, by simpa using hst⟩
      | cons x xs =>
        simp only [List.cons_append, List.cons.injEq] at hst
        exact Or.inr ⟨xs, t, hst.2⟩

/-! ## USB staging (src/usb_prep.py, USBPrepper.prepare_firmware)

The filesystem is modelled as a set of directory paths plus an
association list from file paths to sizes; a path is a list of
components.  `prepare_firmware` follows the Python control flow:
check `Path(firmware_path).exists()` and `os.path.exists(usb_path)`
(either failing returns `False` with no write); `os.makedirs(lg_dtv,
exist_ok=True)` (an existing directory is fine; an existing file at
that path, or a non-directory parent, raises — caught, `False`);
`shutil.copy2(firmware_path, dest)` (raises if the source is not a
regular file or source and destination are the same path — caught,
`False`; copying onto an existing directory copies into it); finally
verify `os.path.exists(dest_path)`. -/

abbrev FPath := List String

structure FS where
  dirs : List FPath
  files : List (FPath × Nat)

def FS.isDir (fs : FS) (p : FPath) : Bool := fs.dirs.contains p

def FS.isFile (fs : FS) (p : FPath) : Bool := fs.files.any (fun kv => kv.1 == p)

def FS.existsPath (fs : FS) (p : FPath) : Bool := fs.isDir p || fs.isFile p

def FS.fileSize (fs : FS) (p : FPath) : Option Nat :=
  (fs.files.find? (fun kv => kv.1 == p)).map Prod.snd

def FS.writeFile (fs : FS) (p : FPath) (sz : Nat) : FS :=
  { fs with files := (p, sz) :: fs.files.filter (fun kv => !(kv.1 == p)) }

def FS.addDir (fs : FS) (p : FPath) : FS := { fs with dirs := p :: fs.dirs }

/-- `os.makedirs(usb_path + "/LG_DTV", exist_ok=True)`: fine if the
directory already exists; raises (`none`) if a file sits at that path or
the parent is not a directory; otherwise creates it. -/
def makedirs_lg_dtv (fs : FS) (usb_path : FPath) : Option FS :=
  if fs.isDir (usb_path ++ ["LG_DTV"]) = true then some fs
  else if fs.isFile (usb_path ++ ["LG_DTV"]) = true ∨ fs.isDir usb_path = false
    then none
  else some (fs.addDir (usb_path ++ ["LG_DTV"]))

/-- `shutil.copy2(src, dst)`: raises (`none`) if the source is not a
regular file or source and destination name the same file; copying onto
an existing directory copies into it; otherwise the destination file is
written (overwritten) with the source's size. -/
def copy2 (fs : FS) (src dst : FPath) : Option FS :=
  if fs.isFile src = false then none
  else
    let dstFinal : FPath :=
      if fs.isDir dst = true then dst ++ [src.getLast?.getD ""] else dst
    if dstFinal = src then none
    else
      match fs.fileSize src with
      | none => none
      | some sz => some (fs.writeFile dstFinal sz)

/-- `USBPrepper.prepare_firmware`, returning the Python result together
with the filesystem after the call. -/
def prepare_firmware (fs : FS) (firmware_path usb_path : FPath) : Bool × FS :=
  if fs.existsPath firmware_path = false then (false, fs)
  else if fs.existsPath usb_path = false then (false, fs)
  else
    match makedirs_lg_dtv fs usb_path with
    | none => (false, fs)
    | some fs1 =>
      let dest : FPath :=
        (usb_path ++ ["LG_DTV"]) ++ [firmware_path.getLast?.getD ""]
      match copy2 fs1 firmware_path dest with
      | none => (false, fs1)
      | some fs2 =>
        if fs2.existsPath dest = false then (false, fs2)
        else (true, fs2)

/-- Number of file entries recorded at a path. -/
def FS.countAt (fs : FS) (p : FPath) : Nat :=
  (fs.files.filter (fun kv => kv.1 == p)).length

/-- The filesystem after the `makedirs` step of a successful run. -/
def FS.afterMkdirs (fs : FS) (up : FPath) : FS :=
  if fs.isDir (up ++ ["LG_DTV"]) = true then fs
  else fs.addDir (up ++ ["LG_DTV"])

/-! ## Drive formatting (src/usb_prep.py, USBPrepper.format_drive)

`format_drive` reads an interactive confirmation; anything but the exact
string `YES` returns `False` before any platform dispatch.  On `YES` it
dispatches on the platform; each platform helper invokes the external
formatting command once, returning its success, and an unsupported
platform returns `False` without invoking anything.  The confirmation
input, the platform, and the external command's success are parameters;
`commandInvoked` records whether a formatting command was run. -/

inductive OSKind | windows | linux | darwin | other

structure FormatOutcome where
  ok : Bool
  commandInvoked : Bool
deriving DecidableEq

def format_drive (confirm : String) (system : OSKind) (cmdSucceeds : Bool) :
    FormatOutcome :=
  if confirm ≠ "YES" then ⟨false, false⟩
  else
    match system with
    | .windows => ⟨cmdSucceeds, true⟩
    | .linux => ⟨cmdSucceeds, true⟩
    | .darwin => ⟨cmdSucceeds, true⟩
    | .other => ⟨false, false⟩

/-! ## SSH helper (src/ssh_helper.py, SSHHelper)

`test_connection` opens a TCP socket with a 5-second timeout and calls
`connect_ex`; it returns `True` exactly on result code 0, `False` on any
nonzero code, and `False` when `socket.gaierror` or any other exception
is raised.  The network outcome is a parameter of the model.

`_execute_command` builds one `ssh` invocation and calls
`subprocess.run` exactly once; with `capture_output` it returns stdout
on exit code 0 and `None` otherwise, without it returns the string
`"Command sent"` on success (`check=True`) and `None` on
`CalledProcessError`; `TimeoutExpired` and `FileNotFoundError` (ssh
client absent) are caught and yield `None`.  The model returns the
`Optional[str]` result paired with the number of subprocess
invocations. -/

def SSH_PROBE_TIMEOUT : Nat := 5

inductive ProbeOutcome
  | connectResult (code : Int)
  | gaiError
  | otherError
deriving DecidableEq

def test_connection (outcome : ProbeOutcome) : Bool :=
  match outcome with
  | .connectResult code => if code = 0 then true else false
  | .gaiError => false
  | .otherError => false

inductive SSHOutcome
  | completed (returncode : Int) (stdout : String) (stderr : String)
  | timedOut
  | sshClientAbsent
deriving DecidableEq

/-- `SSHHelper._execute_command`: the `Optional[str]` result and how many
times `subprocess.run` was invoked. -/
def execute_command (capture_output : Bool) (outcome : SSHOutcome) :
    Option String × Nat :=
  match outcome with
  | .completed rc out _ =>
    if capture_output then
      if rc = 0 then (some out, 1) else (none, 1)
    else
      if rc = 0 then (some "Command sent", 1) else (none, 1)
  | .timedOut => (none, 1)
  | .sshClientAbsent => (none, 1)

/-- An external-tool failure of the ssh invocation: timeout, absent ssh
client, or nonzero exit. -/
def sshFailure : SSHOutcome → Bool
  | .completed rc _ _ => rc != 0
  | .timedOut => true
  | .sshClientAbsent => true

/-- `SSHHelper.send_software_update` returns `_execute_command(cmd)`
(truthiness of the `Optional[str]`). -/
def send_software_update (outcome : SSHOutcome) : Bool :=
  (execute_command false outcome).1.isSome

/-- `SSHHelper.get_firmware_info`: `result if result else None` — an empty
stdout is falsy in Python and is also mapped to `None`. -/
def get_firmware_info (outcome : SSHOutcome) : Option String :=
  match (execute_command true outcome).1 with
  | some s => if s = "" then none else some s
  | none => none

/-! ## Helper lemmas -/

lemma is_patched_eq (v : String) :
    is_patched v =
      (strStartsWith v "03.30.10" ||
        (strStartsWith v "03.30.14" || (strStartsWith v "03.40." || false))) := rfl

lemma inPatchedTableSpec_eq (v : String) :
    inPatchedTableSpec v =
      (("03.30.10" == v) ||
        (("03.30.14" == v) || (strStartsWith v "03.40." || false))) := rfl

lemma FS.isFile_true_of_fileSize {fs : FS} {p : FPath} {sz : Nat}
    (h : fs.fileSize p = some sz) : fs.isFile p = true := by
  unfold FS.fileSize at h
  unfold FS.isFile
  obtain ⟨kv, hfind, -⟩ := Option.map_eq_some'.mp h
  have hmem := List.mem_of_find?_eq_some hfind
  have hp := List.find?_some hfind
  exact List.any_eq_true.mpr ⟨kv, hmem, by simpa using hp⟩

lemma find?_filter_of_imp {α : Type} (l : List α) (pred g : α → Bool)
    (h : ∀ x, pred x = true → g x = true) :
    (l.filter g).find? pred = l.find? pred := by
  induction l with
  | nil => rfl
  | cons a t ih =>
    by_cases hp : pred a = true
    · rw [List.filter_cons_of_pos (h a hp), List.find?_cons_of_pos _ hp,
        List.find?_cons_of_pos _ hp]
    · cases hg : g a
      · rw [List.filter_cons_of_neg (by simp [hg]),
          List.find?_cons_of_neg _ hp, ih]
      · rw [List.filter_cons_of_pos hg, List.find?_cons_of_neg _ hp,
          List.find?_cons_of_neg _ hp, ih]

lemma append_singleton_ne {α : Type} (l : List α) (a : α) : l ++ [a] ≠ l :=
  fun h => by simpa using congrArg List.length h

lemma append_two_ne_append_one {α : Type} (l : List α) (a b : α) :
    l ++ [a, b] ≠ l ++ [a] := fun h => by
  have hlen := congrArg List.length h
  simp at hlen

lemma fileSize_afterMkdirs (fs : FS) (up p : FPath) :
    (fs.afterMkdirs up).fileSize p = fs.fileSize p := by
  unfold FS.afterMkdirs FS.addDir FS.fileSize
  split <;> rfl

lemma isFile_afterMkdirs (fs : FS) (up p : FPath) :
    (fs.afterMkdirs up).isFile p = fs.isFile p := by
  unfold FS.afterMkdirs FS.addDir FS.isFile
  split <;> rfl

lemma afterMkdirs_of_isDir {fs : FS} {up : FPath}
    (h : fs.isDir (up ++ ["LG_DTV"]) = true) : fs.afterMkdirs up = fs := by
  unfold FS.afterMkdirs
  rw [if_pos h]

lemma isDir_afterMkdirs_self (fs : FS) (up : FPath) :
    (fs.afterMkdirs up).isDir (up ++ ["LG_DTV"]) = true := by
  unfold FS.afterMkdirs FS.addDir FS.isDir
  split
  · assumption
  · simp

lemma isDir_afterMkdirs_mono (fs : FS) (up p : FPath)
    (h : fs.isDir p = true) : (fs.afterMkdirs up).isDir p = true := by
  unfold FS.afterMkdirs FS.addDir FS.isDir at *
  split
  · exact h
  · simp_all

lemma isDir_afterMkdirs_of_ne (fs : FS) (up p : FPath)
    (h : fs.isDir p = false) (hne : p ≠ up ++ ["LG_DTV"]) :
    (fs.afterMkdirs up).isDir p = false := by
  unfold FS.afterMkdirs FS.addDir FS.isDir at *
  split
  · exact h
  · simp_all

lemma makedirs_lg_dtv_success {fs : FS} {up : FPath}
    (hdir : fs.isDir up = true)
    (hlgf : fs.isFile (up ++ ["LG_DTV"]) = false) :
    makedirs_lg_dtv fs up = some (fs.afterMkdirs up) := by
  unfold makedirs_lg_dtv FS.afterMkdirs
  by_cases h : fs.isDir (up ++ ["LG_DTV"]) = true
  · simp [h]
  · simp [h, hlgf, hdir]

lemma copy2_success {fs : FS} {src dst : FPath} {sz : Nat}
    (hsz : fs.fileSize src = some sz) (hdd : fs.isDir dst = false)
    (hne : dst ≠ src) :
    copy2 fs src dst = some (fs.writeFile dst sz) := by
  unfold copy2
  rw [FS.isFile_true_of_fileSize hsz]
  simp [hdd, hne, hsz]

lemma isDir_writeFile (fs : FS) (p q : FPath) (sz : Nat) :
    (fs.writeFile q sz).isDir p = fs.isDir p := rfl

lemma isFile_writeFile_self (fs : FS) (p : FPath) (sz : Nat) :
    (fs.writeFile p sz).isFile p = true := by
  unfold FS.writeFile FS.isFile
  simp

lemma isFile_writeFile_of_ne (fs : FS) (p q : FPath) (sz : Nat)
    (hne : p ≠ q) (h : fs.isFile p = false) :
    (fs.writeFile q sz).isFile p = false := by
  unfold FS.writeFile FS.isFile at *
  simp only [List.any_cons, Bool.or_eq_false_iff]
  refine ⟨by simpa using Ne.symm hne, ?_⟩
  rw [List.any_eq_false] at h ⊢
  intro kv hkv
  exact h kv (List.mem_of_mem_filter hkv)

lemma fileSize_writeFile_self (fs : FS) (p : FPath) (sz : Nat) :
    (fs.writeFile p sz).fileSize p = some sz := by
  unfold FS.writeFile FS.fileSize
  rw [List.find?_cons_of_pos _ (by simp)]
  rfl

lemma fileSize_writeFile_ne (fs : FS) (p q : FPath) (sz : Nat)
    (hne : p ≠ q) : (fs.writeFile q sz).fileSize p = fs.fileSize p := by
  unfold FS.writeFile FS.fileSize
  rw [List.find?_cons_of_neg _ (by simpa using Ne.symm hne)]
  rw [find?_filter_of_imp]
  intro kv hkv
  have : kv.1 = p := by simpa using hkv
  simp [this, hne]

lemma countAt_writeFile_self (fs : FS) (p : FPath) (sz : Nat) :
    (fs.writeFile p sz).countAt p = 1 := by
  unfold FS.writeFile FS.countAt
  rw [List.filter_cons_of_pos (by simp), List.filter_filter]
  rw [List.filter_eq_nil_iff.mpr (fun kv _ => by cases h : (kv.1 == p) <;> simp [h])]
  rfl

lemma writeFile_writeFile_self (fs : FS) (p : FPath) (sz : Nat) :
    (fs.writeFile p sz).writeFile p sz = fs.writeFile p sz := by
  unfold FS.writeFile
  congr 1
  rw [List.filter_cons_of_neg (by simp), List.filter_filter]
  exact congrArg (List.cons (p, sz))
    (List.filter_congr (fun kv _ => Bool.and_self _))

lemma prepare_firmware_success (fs : FS) (fp up : FPath) (sz : Nat)
    (hsz : fs.fileSize fp = some sz)
    (hup : fs.isDir up = true)
    (hlg : fs.isFile (up ++ ["LG_DTV"]) = false)
    (hdd : fs.isDir (up ++ ["LG_DTV", fp.getLast?.getD ""]) = false)
    (hne : up ++ ["LG_DTV", fp.getLast?.getD ""] ≠ fp) :
    prepare_firmware fs fp up =
      (true, (fs.afterMkdirs up).writeFile
        (up ++ ["LG_DTV", fp.getLast?.getD ""]) sz) := by
  have hisfile : fs.isFile fp = true := FS.isFile_true_of_fileSize hsz
  have hex1 : fs.existsPath fp = true := by
    unfold FS.existsPath; rw [hisfile, Bool.or_true]
  have hex2 : fs.existsPath up = true := by
    unfold FS.existsPath; rw [hup]; rfl
  have hdd1 : (fs.afterMkdirs up).isDir
      (up ++ ["LG_DTV", fp.getLast?.getD ""]) = false :=
    isDir_afterMkdirs_of_ne fs up _ hdd (append_two_ne_append_one _ _ _)
  have hszm : (fs.afterMkdirs up).fileSize fp = some sz := by
    rw [fileSize_afterMkdirs]; exact hsz
  have hexd : ((fs.afterMkdirs up).writeFile
      (up ++ ["LG_DTV", fp.getLast?.getD ""]) sz).existsPath
      (up ++ ["LG_DTV", fp.getLast?.getD ""]) = true := by
    unfold FS.existsPath
    rw [isFile_writeFile_self, Bool.or_true]
  unfold prepare_firmware
  rw [makedirs_lg_dtv_success hup hlg]
  simp [hex1, hex2, hexd, copy2_success hszm hdd1 hne]

/-! ## Claim theorems -/

/-- C1: `is_rootable` returns `True` exactly for version strings occurring in
some list of `ROOTABLE_FIRMWARE` (their union is `rootableVersions`), and in
particular `is_rootable "4.x.x" = true` for the literal table entry. -/
theorem C1_rootable_classification :
    (∀ v : String, is_rootable v = true ↔ v ∈ rootableVersions) ∧
    is_rootable "4.x.x" = true :=
  ⟨is_rootable_iff, rfl⟩

/-- Witness for C1 at concrete versions: a table entry classifies rootable,
a string in no list does not. -/
theorem C1_rootable_classification_witness :
    is_rootable "03.21.30" = true ∧ is_rootable "foo" ≠ true :=
  ⟨(C1_rootable_classification.1 "03.21.30").mpr (by decide),
   fun h => absurd ((C1_rootable_classification.1 "foo").mp h) (by decide)⟩

/-- C2 counterexample: `"03.30.100"` occurs in neither table — it is not a
rootable entry, not a literal patched entry, and does not match the only
prefix-wildcard entry `"03.40.xx"` — yet `is_patched` classifies it patched,
because the non-wildcard entry `"03.30.10"` is also treated as a string
prefix. -/
theorem C2_neither_table_counterexample :
    is_rootable "03.30.100" = false ∧ inPatchedTableSpec "03.30.100" = false ∧
    is_patched "03.30.100" = true :=
  ⟨rfl, rfl, rfl⟩

/-- C2 (amended): every version in the patched table (literal entries and
prefix-wildcard matches) is classified patched; a version in neither table
that moreover does not extend a literal patched entry as a string prefix is
classified unknown (both classifiers return `False`); classifying
`"03.30.10"` yields patched with recommended downgrade target `"03.21.30"`. -/
theorem C2_patched_classification :
    (∀ v : String, inPatchedTableSpec v = true → is_patched v = true) ∧
    (∀ v : String, v ∉ rootableVersions → inPatchedTableSpec v = false →
      strStartsWith v "03.30.10" = false → strStartsWith v "03.30.14" = false →
      is_rootable v = false ∧ is_patched v = false) ∧
    is_patched "03.30.10" = true ∧
    recommend_firmware "03.30.10" = some "03.21.30" := by
  refine ⟨?_, ?_, rfl, rfl⟩
  · intro v hv
    rw [inPatchedTableSpec_eq] at hv
    rw [is_patched_eq]
    simp only [Bool.or_eq_true, Bool.or_false, beq_iff_eq] at hv ⊢
    rcases hv with h | h | h
    · exact Or.inl (by subst h; decide)
    · exact Or.inr (Or.inl (by subst h; decide))
    · exact Or.inr (Or.inr h)
  · intro v hnr hpt h10 h14
    have h40 : strStartsWith v "03.40." = false := by
      rw [inPatchedTableSpec_eq] at hpt
      simp only [Bool.or_false, Bool.or_eq_false_iff] at hpt
      exact hpt.2.2
    refine ⟨?_, ?_⟩
    · cases h : is_rootable v
      · rfl
      · exact absurd ((is_rootable_iff v).mp h) hnr
    · rw [is_patched_eq, h10, h14, h40]
      rfl

/-- Witness for C2 at concrete versions: a wildcard match is patched, and a
version in neither table extending no literal entry is unknown. -/
theorem C2_patched_classification_witness :
    is_patched "03.40.77" = true ∧
    (is_rootable "99.99.99" = false ∧ is_patched "99.99.99" = false) :=
  ⟨C2_patched_classification.1 "03.40.77" (by decide),
   C2_patched_classification.2.1 "99.99.99" (by decide) (by decide)
     (by decide) (by decide)⟩

/-- C9: `recommend_firmware` is total and never `None`: it returns the
current version itself when rootable and the constant `"03.21.30"`
otherwise. -/
theorem C9_recommend_total :
    ∀ v : String, (recommend_firmware v).isSome = true ∧
      recommend_firmware v =
        some (if is_rootable v = true then v else "03.21.30") := by
  intro v
  unfold recommend_firmware
  cases h : is_rootable v <;> simp [h]

/-- C10: the rootable and patched classifications are mutually exclusive:
no version string is classified both. -/
theorem C10_mutually_exclusive :
    ∀ v : String, ¬(is_rootable v = true ∧ is_patched v = true) := by
  rintro v ⟨hr, hp⟩
  rcases is_rootable_cases v hr with h|h|h|h|h|h|h|h|h <;> subst h <;>
    exact absurd hp (by decide)

/-- C3 counterexample: the cache file `"fw_03.21.30_v2.epk"` is a `*.epk`
file whose name contains the version `"03.21.30"`, yet `check_cache`
returns `none` for that version, because the compiled pattern requires the
version to be followed immediately by `.epk`. -/
theorem C3_cache_counterexample :
    strEndsWith "fw_03.21.30_v2.epk" ".epk" = true ∧
    containsSeq (strToLower "03.21.30").data
      (strToLower "fw_03.21.30_v2.epk").data = true ∧
    check_cache "03.21.30" ["fw_03.21.30_v2.epk"] = none :=
  ⟨rfl, rfl, rfl⟩

/-- C3 (amended): the cache lookup returns a cached file exactly when some
`*.epk` file in the cache directory has a name containing, case-
insensitively, the version string immediately followed by `.epk`; it
returns `none` when no cached file matches. -/
theorem C3_cache_lookup :
    ∀ (v : String) (files : List String),
      (check_cache v files).isSome = true ↔
      ∃ n ∈ files, strEndsWith n ".epk" = true ∧
        ∃ s t, (strToLower n).data =
          s ++ ((strToLower v).data ++ ".epk".data) ++ t := by
  intro v files
  unfold check_cache
  rw [List.find?_isSome]
  constructor
  · rintro ⟨n, hn, hm⟩
    rw [List.mem_filter] at hn
    exact ⟨n, hn.1, hn.2, (containsSeq_iff _ _).mp hm⟩
  · rintro ⟨n, hn, hepk, hsub⟩
    exact ⟨n, List.mem_filter.mpr ⟨hn, hepk⟩, (containsSeq_iff _ _).mpr hsub⟩

/-- Witness for C3 at a concrete cache: a file named by the version plus
`.epk` is found. -/
theorem C3_cache_lookup_witness :
    (check_cache "03.21.30" ["lg_03.21.30.epk"]).isSome = true :=
  (C3_cache_lookup "03.21.30" ["lg_03.21.30.epk"]).mpr
    ⟨"lg_03.21.30.epk", by simp, rfl, "lg_".data, [], by decide⟩

/-- C4: `prepare_firmware` returns `False` and leaves the filesystem
unchanged (no `LG_DTV` directory created, no file copied) when the source
firmware file does not exist or the destination volume path does not
exist. -/
theorem C4_prepare_precondition_failure :
    ∀ (fs : FS) (firmware_path usb_path : FPath),
      fs.existsPath firmware_path = false ∨ fs.existsPath usb_path = false →
      prepare_firmware fs firmware_path usb_path = (false, fs) := by
  intro fs fp up h
  unfold prepare_firmware
  rcases h with h | h
  · simp [h]
  · by_cases h1 : fs.existsPath fp = false
    · simp [h1]
    · simp [h1, h]

/-- Witness for C4 on a concrete empty filesystem. -/
theorem C4_prepare_precondition_failure_witness :
    prepare_firmware ⟨[], []⟩ ["fw.epk"] ["usb"] = (false, ⟨[], []⟩) :=
  C4_prepare_precondition_failure ⟨[], []⟩ ["fw.epk"] ["usb"] (Or.inl rfl)

/-- C5: staging is idempotent: with an existing source firmware file and an
existing destination volume directory (and the usual sanity conditions —
no foreign `LG_DTV` file or directory collision at the destination, and the
source not already being the destination path), `prepare_firmware` succeeds
twice in a row and after each run exactly one file of the source's size sits
at `<volume>/LG_DTV/<firmware-filename>`; the second run leaves the
filesystem exactly as the first did. -/
theorem C5_staging_idempotent :
    ∀ (fs : FS) (fp up : FPath) (sz : Nat),
      fs.fileSize fp = some sz →
      fs.isDir up = true →
      fs.isFile (up ++ ["LG_DTV"]) = false →
      fs.isDir (up ++ ["LG_DTV", fp.getLast?.getD ""]) = false →
      up ++ ["LG_DTV", fp.getLast?.getD ""] ≠ fp →
      (prepare_firmware fs fp up).1 = true ∧
      (prepare_firmware fs fp up).2.fileSize
        (up ++ ["LG_DTV", fp.getLast?.getD ""]) = some sz ∧
      (prepare_firmware fs fp up).2.countAt
        (up ++ ["LG_DTV", fp.getLast?.getD ""]) = 1 ∧
      (prepare_firmware (prepare_firmware fs fp up).2 fp up).1 = true ∧
      (prepare_firmware (prepare_firmware fs fp up).2 fp up).2.fileSize
        (up ++ ["LG_DTV", fp.getLast?.getD ""]) = some sz ∧
      (prepare_firmware (prepare_firmware fs fp up).2 fp up).2.countAt
        (up ++ ["LG_DTV", fp.getLast?.getD ""]) = 1 ∧
      (prepare_firmware (prepare_firmware fs fp up).2 fp up).2 =
        (prepare_firmware fs fp up).2 := by
  intro fs fp up sz h1 h2 h3 h4 h5
  have hrun1 := prepare_firmware_success fs fp up sz h1 h2 h3 h4 h5
  have h1' : ((fs.afterMkdirs up).writeFile
      (up ++ ["LG_DTV", fp.getLast?.getD ""]) sz).fileSize fp = some sz := by
    rw [fileSize_writeFile_ne _ _ _ _ (Ne.symm h5), fileSize_afterMkdirs]
    exact h1
  have h2' : ((fs.afterMkdirs up).writeFile
      (up ++ ["LG_DTV", fp.getLast?.getD ""]) sz).isDir up = true := by
    rw [isDir_writeFile]
    exact isDir_afterMkdirs_mono fs up up h2
  have h3' : ((fs.afterMkdirs up).writeFile
      (up ++ ["LG_DTV", fp.getLast?.getD ""]) sz).isFile
      (up ++ ["LG_DTV"]) = false := by
    apply isFile_writeFile_of_ne
    · exact (append_two_ne_append_one up "LG_DTV" (fp.getLast?.getD "")).symm
    · rw [isFile_afterMkdirs]
      exact h3
  have h4' : ((fs.afterMkdirs up).writeFile
      (up ++ ["LG_DTV", fp.getLast?.getD ""]) sz).isDir
      (up ++ ["LG_DTV", fp.getLast?.getD ""]) = false := by
    rw [isDir_writeFile]
    exact isDir_afterMkdirs_of_ne fs up _ h4 (append_two_ne_append_one up _ _)
  have hrun2 := prepare_firmware_success
    ((fs.afterMkdirs up).writeFile
      (up ++ ["LG_DTV", fp.getLast?.getD ""]) sz) fp up sz h1' h2' h3' h4' h5
  have hlg1 : ((fs.afterMkdirs up).writeFile
      (up ++ ["LG_DTV", fp.getLast?.getD ""]) sz).isDir
      (up ++ ["LG_DTV"]) = true := by
    rw [isDir_writeFile]
    exact isDir_afterMkdirs_self fs up
  rw [afterMkdirs_of_isDir hlg1] at hrun2
  rw [writeFile_writeFile_self] at hrun2
  refine ⟨by rw [hrun1], ?_, ?_, ?_, ?_, ?_, ?_⟩
  · rw [hrun1]
    exact fileSize_writeFile_self _ _ _
  · rw [hrun1]
    exact countAt_writeFile_self _ _ _
  · simp only [hrun1]
    rw [hrun2]
  · simp only [hrun1]
    rw [hrun2]
    exact fileSize_writeFile_self _ _ _
  · simp only [hrun1]
    rw [hrun2]
    exact countAt_writeFile_self _ _ _
  · simp only [hrun1]
    rw [hrun2]

/-- Witness for C5: a concrete volume and firmware file stage twice. -/
theorem C5_staging_idempotent_witness :
    (prepare_firmware ⟨[["usb"]], [(["fw.epk"], 7)]⟩ ["fw.epk"] ["usb"]).1
      = true ∧
    (prepare_firmware
      (prepare_firmware ⟨[["usb"]], [(["fw.epk"], 7)]⟩ ["fw.epk"] ["usb"]).2
      ["fw.epk"] ["usb"]).1 = true :=
  ⟨(C5_staging_idempotent ⟨[["usb"]], [(["fw.epk"], 7)]⟩ ["fw.epk"] ["usb"] 7
      rfl rfl rfl rfl (by decide)).1,
   (C5_staging_idempotent ⟨[["usb"]], [(["fw.epk"], 7)]⟩ ["fw.epk"] ["usb"] 7
      rfl rfl rfl rfl (by decide)).2.2.2.1⟩

/-- C6: `format_drive` invokes a platform formatting command only when the
typed confirmation is exactly `"YES"`; any other input returns `False`
with no format command invoked. -/
theorem C6_format_confirmation_gate :
    ∀ (confirm : String) (system : OSKind) (cmdSucceeds : Bool),
      confirm ≠ "YES" →
      format_drive confirm system cmdSucceeds = ⟨false, false⟩ := by
  intro c s ok h
  unfold format_drive
  simp [h]

/-- Witness for C6: the inputs `"yes"`, `"Y"` and `""` do not format. -/
theorem C6_format_confirmation_gate_witness :
    format_drive "yes" OSKind.linux true = ⟨false, false⟩ ∧
    format_drive "Y" OSKind.windows true = ⟨false, false⟩ ∧
    format_drive "" OSKind.darwin true = ⟨false, false⟩ :=
  ⟨C6_format_confirmation_gate "yes" OSKind.linux true (by decide),
   C6_format_confirmation_gate "Y" OSKind.windows true (by decide),
   C6_format_confirmation_gate "" OSKind.darwin true (by decide)⟩

/-- C7: `test_connection` returns `True` exactly when the `connect_ex`
probe returns result code 0; a nonzero code (closed port) or a raised
exception yields `False`; the probe socket timeout is 5 seconds. -/
theorem C7_test_connection :
    (∀ outcome : ProbeOutcome,
        test_connection outcome = true ↔
          outcome = ProbeOutcome.connectResult 0) ∧
    SSH_PROBE_TIMEOUT = 5 := by
  refine ⟨?_, rfl⟩
  intro o
  cases o with
  | connectResult c =>
    by_cases h : c = 0 <;>
      simp [test_connection, h, ProbeOutcome.connectResult.injEq]
  | gaiError => simp [test_connection]
  | otherError => simp [test_connection]

/-- Witness for C7: an open port (code 0) is reachable, a closed port
(code 111) is not. -/
theorem C7_test_connection_witness :
    test_connection (ProbeOutcome.connectResult 0) = true ∧
    test_connection (ProbeOutcome.connectResult 111) = false := by
  refine ⟨(C7_test_connection.1 (ProbeOutcome.connectResult 0)).mpr rfl, ?_⟩
  cases h : test_connection (ProbeOutcome.connectResult 111)
  · rfl
  · exact absurd ((C7_test_connection.1 (ProbeOutcome.connectResult 111)).mp h)
      (by decide)

/-- C8: every `_execute_command` call invokes the subprocess exactly once
(no retry); an external-tool failure — timeout, absent ssh client, or
nonzero exit — yields `none` rather than an exception, and callers such as
`send_software_update` and `get_firmware_info` see a falsy/absent
result. -/
theorem C8_execute_command_failures :
    ∀ (capture_output : Bool) (outcome : SSHOutcome),
      (execute_command capture_output outcome).2 = 1 ∧
      (sshFailure outcome = true →
        (execute_command capture_output outcome).1 = none) ∧
      (sshFailure outcome = true →
        send_software_update outcome = false ∧
        get_firmware_info outcome = none) := by
  have key : ∀ (cap : Bool) (o : SSHOutcome), sshFailure o = true →
      (execute_command cap o).1 = none := by
    intro cap o hf
    cases o with
    | completed rc out err =>
      simp only [sshFailure, bne_iff_ne, ne_eq] at hf
      cases cap <;> simp [execute_command, hf]
    | timedOut => cases cap <;> rfl
    | sshClientAbsent => cases cap <;> rfl
  intro cap o
  refine ⟨?_, key cap o, fun hf => ⟨?_, ?_⟩⟩
  · cases o with
    | completed rc out err =>
      cases cap <;> by_cases h : rc = 0 <;> simp [execute_command, h]
    | timedOut => cases cap <;> rfl
    | sshClientAbsent => cases cap <;> rfl
  · unfold send_software_update
    rw [key false o hf]
    rfl
  · unfold get_firmware_info
    rw [key true o hf]

/-- Witness for C8 at concrete failures: a timeout and a nonzero exit both
yield `none` from a single invocation. -/
theorem C8_execute_command_failures_witness :
    (execute_command true SSHOutcome.timedOut).1 = none ∧
    (execute_command true SSHOutcome.timedOut).2 = 1 ∧
    send_software_update (SSHOutcome.completed 1 "" "err") = false :=
  ⟨((C8_execute_command_failures true SSHOutcome.timedOut).2.1 rfl),
   (C8_execute_command_failures true SSHOutcome.timedOut).1,
   ((C8_execute_command_failures false
      (SSHOutcome.completed 1 "" "err")).2.2 (by decide)).1⟩

end LGTV
